import Mathlib

/-!
Verification of the ReportService lease-based work-queue core.

The definitions below are a shallow embedding of the Python source:
the Snowflake work table is a `List Row`, each SQL statement becomes a
pure function on that list, timestamps are integers, and nullable
columns are `Option`s (SQL three-valued logic is reflected where the
queries depend on it, e.g. `NULL + 1 = NULL` and `NULL < x` filtering
to false).
-/

set_option maxRecDepth 8192

namespace ReportService

/-- Status values stored in the `status` column of the work table. -/
inductive Status where
  | pending
  | processing
  | completed
  | failed
deriving DecidableEq, Repr

/-- One row of the Snowflake work table, with the columns used by
`container/processor.py` and `lambda_poller/index.py`. Nullable columns
are `Option`s. -/
structure Row where
  id : Nat
  data : String
  status : Status
  processor_id : Option String
  claimed_at : Option Int
  retry_count : Option Nat
  created_at : Int
  completed_at : Option Int
  failed_at : Option Int
  error_message : Option String
deriving DecidableEq, Repr

/-- The retry filter of the claim and backlog queries:
`retry_count < 3 OR retry_count IS NULL`. -/
def retryOkB (r : Row) : Bool :=
  match r.retry_count with
  | none => true
  | some k => decide (k < 3)

/-- The row filter of the claim subquery and of the backlog count:
`status = 'pending' AND (retry_count < 3 OR retry_count IS NULL)`. -/
def eligibleB (r : Row) : Bool :=
  decide (r.status = Status.pending) && retryOkB r

/-- The `ORDER BY created_at ASC` key of the claim subquery. -/
def createdLe (a b : Row) : Prop :=
  a.created_at ≤ b.created_at

instance : DecidableRel createdLe :=
  fun a b => inferInstanceAs (Decidable (a.created_at ≤ b.created_at))

instance : IsTotal Row createdLe :=
  ⟨fun a b => Int.le_total a.created_at b.created_at⟩

instance : IsTrans Row createdLe :=
  ⟨fun _ _ _ hab hbc => Int.le_trans hab hbc⟩

/-- The inner subquery of `claim_entries`:
`SELECT id FROM tbl WHERE status = 'pending' AND (retry_count < 3 OR
retry_count IS NULL) ORDER BY created_at ASC LIMIT count FOR UPDATE`
(here returning whole rows, whose ids are then used). -/
def claimSelect (count : Nat) (tbl : List Row) : List Row :=
  (List.insertionSort createdLe (tbl.filter eligibleB)).take count

/-- The `SET` clause of the claiming `UPDATE`: `status = 'processing',
processor_id = pid, claimed_at = now`. -/
def claimUpdateRow (pid : String) (now : Int) (r : Row) : Row :=
  { r with status := Status.processing, processor_id := some pid,
           claimed_at := some now }

/-- `SnowflakeProcessor.claim_entries`: one atomic `UPDATE ... WHERE id IN
(subquery) RETURNING id, data`. Returns the `(id, data)` pairs of the
claimed rows and the updated table. -/
def claim_entries (pid : String) (now : Int) (count : Nat) (tbl : List Row) :
    List (Nat × String) × List Row :=
  let sel := claimSelect count tbl
  let ids := sel.map Row.id
  (sel.map (fun r => (r.id, r.data)),
   tbl.map (fun r => if r.id ∈ ids then claimUpdateRow pid now r else r))

/-- `STALE_THRESHOLD_MINUTES = 30` from `lambda_poller/index.py`
(time is modelled in minutes). -/
def STALE_THRESHOLD_MINUTES : Int := 30

/-- The `WHERE` clause of `reset_stale_entries`:
`status = 'processing' AND claimed_at < staleTime`. A SQL comparison
against a `NULL` `claimed_at` is not true, so such rows do not match. -/
def isStaleB (staleTime : Int) (r : Row) : Bool :=
  decide (r.status = Status.processing) &&
    (match r.claimed_at with
     | none => false
     | some t => decide (t < staleTime))

/-- The `SET` clause of `reset_stale_entries`: `status = 'pending',
processor_id = NULL, claimed_at = NULL, retry_count = retry_count + 1`.
In SQL, `NULL + 1` is `NULL`, hence the `Option.map`. -/
def reclaimRow (r : Row) : Row :=
  { r with status := Status.pending, processor_id := none,
           claimed_at := none, retry_count := r.retry_count.map (· + 1) }

/-- `reset_stale_entries`: updates every stale processing row and returns
the affected row count (`cursor.rowcount`) with the updated table. -/
def reset_stale_entries (now : Int) (tbl : List Row) : Nat × List Row :=
  let staleTime := now - STALE_THRESHOLD_MINUTES
  ((tbl.filter (isStaleB staleTime)).length,
   tbl.map (fun r => if isStaleB staleTime r then reclaimRow r else r))

/-- The rows counted by `get_pending_entries_count`:
`WHERE status = 'pending' AND (retry_count < 3 OR retry_count IS NULL)`. -/
def pendingRows (tbl : List Row) : List Row :=
  tbl.filter eligibleB

/-- `get_pending_entries_count`: `SELECT COUNT(*)` over the pending filter. -/
def get_pending_entries_count (tbl : List Row) : Nat :=
  (pendingRows tbl).length

/-- `ENTRIES_PER_CONTAINER = 8` from `lambda_poller/index.py`. -/
def ENTRIES_PER_CONTAINER : Nat := 8

/-- `MAX_CONTAINERS = 25` from `lambda_poller/index.py`. -/
def MAX_CONTAINERS : Nat := 25

/-- `calculate_containers_needed`: `0` when there are no entries, otherwise
`min(ceil(entry_count / ENTRIES_PER_CONTAINER), MAX_CONTAINERS)`. -/
def calculate_containers_needed (entry_count : Nat) : Nat :=
  if entry_count = 0 then 0
  else
    min ((entry_count + ENTRIES_PER_CONTAINER - 1) / ENTRIES_PER_CONTAINER)
      MAX_CONTAINERS

/-- `SnowflakeProcessor.mark_entry_completed`: `UPDATE ... SET status =
'completed', completed_at = now WHERE id = eid AND processor_id = pid`.
Lease columns are not written. -/
def mark_entry_completed (pid : String) (now : Int) (eid : Nat)
    (tbl : List Row) : List Row :=
  tbl.map (fun r =>
    if r.id = eid ∧ r.processor_id = some pid then
      { r with status := Status.completed, completed_at := some now }
    else r)

/-- `SnowflakeProcessor.mark_entry_failed`: `UPDATE ... SET status =
'failed', failed_at = now, error_message = msg[:1000] WHERE id = eid AND
processor_id = pid`. Lease columns are not written. -/
def mark_entry_failed (pid : String) (now : Int) (eid : Nat) (msg : String)
    (tbl : List Row) : List Row :=
  tbl.map (fun r =>
    if r.id = eid ∧ r.processor_id = some pid then
      { r with status := Status.failed, failed_at := some now,
               error_message := some (msg.take 1000) }
    else r)

/-- The possible results of the external HTTP call made by
`process_entry`: HTTP 200, a non-200 status, a timeout, or an exception. -/
inductive Outcome where
  | success
  | httpError (code : Nat)
  | timeout
  | exc (msg : String)
deriving DecidableEq, Repr

/-- The failure reason string built by `process_entry` for each failing
outcome. -/
def outcomeMsg : Outcome → String
  | Outcome.success => ""
  | Outcome.httpError code => "External service returned status " ++ toString code
  | Outcome.timeout => "External service timeout"
  | Outcome.exc m => m

/-- The per-entry result dictionary returned by `process_entry`. -/
structure EntryResult where
  entry_id : Nat
  ok : Bool
  error : Option String
deriving DecidableEq, Repr

/-- `SnowflakeProcessor.process_entry`: calls the external service for one
entry (outcome given by `oc`), and marks the entry completed on HTTP 200
or failed on any non-success outcome. -/
def process_entry (pid : String) (now : Int) (oc : Nat → Outcome)
    (e : Nat × String) (tbl : List Row) : EntryResult × List Row :=
  match oc e.1 with
  | Outcome.success =>
      ({ entry_id := e.1, ok := true, error := none },
       mark_entry_completed pid now e.1 tbl)
  | o =>
      ({ entry_id := e.1, ok := false, error := some (outcomeMsg o) },
       mark_entry_failed pid now e.1 (outcomeMsg o) tbl)

/-- `SnowflakeProcessor.process_batch`: processes every claimed entry,
collecting one result per entry (the entries' store updates are serialized
through the single connection). -/
def process_batch (pid : String) (now : Int) (oc : Nat → Outcome) :
    List (Nat × String) → List Row → List EntryResult × List Row
  | [], tbl => ([], tbl)
  | e :: es, tbl =>
      let step := process_entry pid now oc e tbl
      let rest := process_batch pid now oc es step.2
      (step.1 :: rest.1, rest.2)

/-- `SnowflakeProcessor.run`: returns 1 if certificate download fails,
1 if the store connection fails (both before claiming), otherwise claims
a batch and returns 0 whether the batch is empty, fully successful, or
partly/fully failed. Result: (exit code, per-entry results, final table). -/
def run (certOk connOk : Bool) (pid : String) (now : Int) (maxEntries : Nat)
    (oc : Nat → Outcome) (tbl : List Row) :
    Nat × List EntryResult × List Row :=
  if certOk = false then (1, [], tbl)
  else if connOk = false then (1, [], tbl)
  else
    let claimed := claim_entries pid now maxEntries tbl
    if claimed.1.isEmpty then (0, [], claimed.2)
    else
      let processed := process_batch pid now oc claimed.1 claimed.2
      (0, processed.1, processed.2)

/-- A row of the report-config views used by
`src/report_service.py` (`V_PENDING_ADHOC_REPORTS` /
`V_DUE_SCHEDULED_REPORTS`), with the columns the `ORDER BY` clauses use. -/
structure Report where
  config_id : Nat
  priority : Nat
  created_ts : Int
  next_run_time : Option Int
deriving DecidableEq, Repr

/-- The `ORDER BY PRIORITY ASC, CREATED_TIMESTAMP DESC` key of
`get_adhoc_reports`. -/
def adhocLe (a b : Report) : Prop :=
  a.priority < b.priority ∨ (a.priority = b.priority ∧ b.created_ts ≤ a.created_ts)

instance : DecidableRel adhocLe := fun a b =>
  inferInstanceAs
    (Decidable (a.priority < b.priority ∨
      (a.priority = b.priority ∧ b.created_ts ≤ a.created_ts)))

/-- The `ORDER BY NEXT_RUN_TIME ASC NULLS FIRST` key of
`get_scheduled_reports`. -/
def schedLe (a b : Report) : Prop :=
  match a.next_run_time, b.next_run_time with
  | none, _ => True
  | some _, none => False
  | some x, some y => x ≤ y

instance : DecidableRel schedLe := fun a b => by
  unfold schedLe
  exact match a.next_run_time, b.next_run_time with
    | none, _ => inferInstanceAs (Decidable True)
    | some _, none => inferInstanceAs (Decidable False)
    | some x, some y => inferInstanceAs (Decidable (x ≤ y))

/-- `EnhancedReportService.get_adhoc_reports`: the pending ad-hoc view
ordered by `PRIORITY ASC, CREATED_TIMESTAMP DESC`. -/
def get_adhoc_reports (view : List Report) : List Report :=
  List.insertionSort adhocLe view

/-- `EnhancedReportService.get_scheduled_reports`: the due scheduled view
ordered by `NEXT_RUN_TIME ASC NULLS FIRST`. -/
def get_scheduled_reports (view : List Report) : List Report :=
  List.insertionSort schedLe view

/-- The ordering asserted by the specification for ad-hoc work:
priority class first, then creation time ascending (FIFO). Used only to
compare the specification against the source ordering `adhocLe`. -/
def specAdhocLe (a b : Report) : Prop :=
  a.priority < b.priority ∨ (a.priority = b.priority ∧ a.created_ts ≤ b.created_ts)

instance : DecidableRel specAdhocLe := fun a b =>
  inferInstanceAs
    (Decidable (a.priority < b.priority ∨
      (a.priority = b.priority ∧ a.created_ts ≤ b.created_ts)))

/-- The ordering asserted by the specification for scheduled work:
due time ascending with null due times ordered last. Used only to compare
the specification against the source ordering `schedLe`. -/
def specSchedLe (a b : Report) : Prop :=
  match a.next_run_time, b.next_run_time with
  | none, none => True
  | none, some _ => False
  | some _, none => True
  | some x, some y => x ≤ y

instance : DecidableRel specSchedLe := fun a b => by
  unfold specSchedLe
  exact match a.next_run_time, b.next_run_time with
    | none, none => inferInstanceAs (Decidable True)
    | none, some _ => inferInstanceAs (Decidable False)
    | some _, none => inferInstanceAs (Decidable True)
    | some x, some y => inferInstanceAs (Decidable (x ≤ y))

instance : IsTotal Report adhocLe :=
  ⟨by
    intro a b
    rcases lt_trichotomy a.priority b.priority with h | h | h
    · exact Or.inl (Or.inl h)
    · rcases Int.le_total a.created_ts b.created_ts with h2 | h2
      · exact Or.inr (Or.inr ⟨h.symm, h2⟩)
      · exact Or.inl (Or.inr ⟨h, h2⟩)
    · exact Or.inr (Or.inl h)⟩

instance : IsTrans Report adhocLe :=
  ⟨by
    intro a b c hab hbc
    rcases hab with h1 | ⟨h1, h1c⟩
    · rcases hbc with h2 | ⟨h2, _⟩
      · exact Or.inl (h1.trans h2)
      · exact Or.inl (lt_of_lt_of_eq h1 h2)
    · rcases hbc with h2 | ⟨h2, h2c⟩
      · exact Or.inl (lt_of_eq_of_lt h1 h2)
      · exact Or.inr ⟨h1.trans h2, h2c.trans h1c⟩⟩

instance : IsTotal Report schedLe :=
  ⟨by
    intro a b
    cases ha : a.next_run_time <;> cases hb : b.next_run_time <;>
      simp [schedLe, ha, hb]
    exact Int.le_total _ _⟩

instance : IsTrans Report schedLe :=
  ⟨by
    intro a b c hab hbc
    unfold schedLe at hab hbc ⊢
    cases ha : a.next_run_time <;> cases hb : b.next_run_time <;>
      cases hc : c.next_run_time <;> simp_all
    omega⟩

/-- The per-entry result value built by `process_entry`, as a function of
the entry and its own external-call outcome only. -/
def entryResultOf (e : Nat × String) (o : Outcome) : EntryResult :=
  match o with
  | Outcome.success => { entry_id := e.1, ok := true, error := none }
  | o => { entry_id := e.1, ok := false, error := some (outcomeMsg o) }

/-- The row update performed for one entry depending on its outcome:
the `SET` clause of `mark_entry_completed` on success, of
`mark_entry_failed` (with the truncated outcome message) otherwise. -/
def applyOutcome (now : Int) (o : Outcome) (r : Row) : Row :=
  match o with
  | Outcome.success => { r with status := Status.completed, completed_at := some now }
  | o => { r with status := Status.failed, failed_at := some now,
                  error_message := some ((outcomeMsg o).take 1000) }

/-- The effect of processing one entry on one row of the table: the row is
updated iff it is the entry's row and is owned by the processor. -/
def markOne (pid : String) (now : Int) (oc : Nat → Outcome)
    (e : Nat × String) (r : Row) : Row :=
  if r.id = e.1 ∧ r.processor_id = some pid then applyOutcome now (oc e.1) r
  else r

/-- The cumulative effect of a whole batch on one row of the table. -/
def rowAfter (pid : String) (now : Int) (oc : Nat → Outcome) :
    List (Nat × String) → Row → Row
  | [], r => r
  | e :: es, r => rowAfter pid now oc es (markOne pid now oc e r)

/-- A sequence of dispatcher reclaim cycles run at the given times. -/
def reclaimSteps : List Int → List Row → List Row
  | [], tbl => tbl
  | t :: ts, tbl => reclaimSteps ts (reset_stale_entries t tbl).2

/-- The lease-field invariant of the specification data model:
`ownerId` and `leasedAt` are both null or both non-null. -/
def leaseConsistent (r : Row) : Prop :=
  (r.processor_id = none ∧ r.claimed_at = none) ∨
  (r.processor_id ≠ none ∧ r.claimed_at ≠ none)

instance (r : Row) : Decidable (leaseConsistent r) :=
  inferInstanceAs
    (Decidable ((r.processor_id = none ∧ r.claimed_at = none) ∨
      (r.processor_id ≠ none ∧ r.claimed_at ≠ none)))

/-- Builds a work-table row with the given key fields and all remaining
columns null; used for the concrete test fixtures below. -/
def mkRow (i : Nat) (st : Status) (pidO : Option String) (cl : Option Int)
    (rc : Option Nat) (cr : Int) : Row :=
  { id := i, data := "d", status := st, processor_id := pidO,
    claimed_at := cl, retry_count := rc, created_at := cr,
    completed_at := none, failed_at := none, error_message := none }

/-- Fixture: two pending unleased rows. -/
def tblW : List Row :=
  [mkRow 1 Status.pending none none none 0,
   mkRow 2 Status.pending none none none 1]

/-- Fixture: a processing row leased at time 0 with a null retry count. -/
def staleNullRow : Row := mkRow 1 Status.processing (some "A") (some 0) none 0

/-- Fixture: a processing row leased recently (at time 25). -/
def freshRow : Row := mkRow 2 Status.processing (some "A") (some 25) (some 0) 0

/-- Fixture: a pending row whose retry count has reached the limit. -/
def deadRow3 : Row := mkRow 2 Status.pending none none (some 5) 0

/-- Fixture: a table with one claimable row and one dead-letter row. -/
def tblD : List Row :=
  [mkRow 1 Status.pending none none none 0, deadRow3]

/-- Fixture: ad-hoc report created earlier. -/
def rOldW : Report :=
  { config_id := 1, priority := 1, created_ts := 1, next_run_time := none }

/-- Fixture: ad-hoc report of the same priority created later. -/
def rNewW : Report :=
  { config_id := 2, priority := 1, created_ts := 2, next_run_time := none }

/-- Fixture: scheduled report with a due time. -/
def sDueW : Report :=
  { config_id := 3, priority := 1, created_ts := 0, next_run_time := some 5 }

/-- Fixture: scheduled report with a null due time. -/
def sNoneW : Report :=
  { config_id := 4, priority := 1, created_ts := 0, next_run_time := none }

/-- Fixture: a processing row currently owned by processor A. -/
def ownedRow6 : Row := mkRow 1 Status.processing (some "A") (some 0) (some 0) 0

/-- Fixture: a one-row table owned by processor A. -/
def tbl6 : List Row := [ownedRow6]

/-- Fixture: a processing row owned by processor B (not by A). -/
def otherRow7 : Row := mkRow 1 Status.processing (some "B") (some 0) (some 0) 0

/-- Fixture: five rows claimed by processor A. -/
def tbl8 : List Row :=
  [mkRow 1 Status.processing (some "A") (some 0) (some 0) 0,
   mkRow 2 Status.processing (some "A") (some 0) (some 0) 1,
   mkRow 3 Status.processing (some "A") (some 0) (some 0) 2,
   mkRow 4 Status.processing (some "A") (some 0) (some 0) 3,
   mkRow 5 Status.processing (some "A") (some 0) (some 0) 4]

/-- Fixture: the claimed batch corresponding to `tbl8`. -/
def batch8 : List (Nat × String) :=
  [(1, "d"), (2, "d"), (3, "d"), (4, "d"), (5, "d")]

/-- Fixture: outcome assignment where only item 3 times out. -/
def oc8 : Nat → Outcome :=
  fun i => if i = 3 then Outcome.timeout else Outcome.success

/-- Fixture: the `tbl8` row of entry 3. -/
def row8c : Row := mkRow 3 Status.processing (some "A") (some 0) (some 0) 2

/-- Fixture: two pending rows for worker-runtime runs. -/
def tbl9 : List Row :=
  [mkRow 1 Status.pending none none none 0,
   mkRow 2 Status.pending none none none 1]

/-- Fixture: outcome assignment where entry 1 times out. -/
def oc9mix : Nat → Outcome :=
  fun i => if i = 1 then Outcome.timeout else Outcome.success

/-- Fixture: outcome assignment where every entry succeeds. -/
def oc9all : Nat → Outcome := fun _ => Outcome.success

/-- Fixture: a processing row with a null retry count, leased at time 0. -/
def nullRow10 : Row := mkRow 7 Status.processing (some "A") (some 0) none 0

/-! ### Helper lemmas -/

theorem retryOkB_iff (r : Row) :
    retryOkB r = true ↔
      (r.retry_count = none ∨ ∃ k, r.retry_count = some k ∧ k < 3) := by
  unfold retryOkB
  cases h : r.retry_count <;> simp [h]

theorem eligibleB_iff (r : Row) :
    eligibleB r = true ↔ r.status = Status.pending ∧ retryOkB r = true := by
  unfold eligibleB
  simp [Bool.and_eq_true, decide_eq_true_iff]

theorem isStaleB_iff (s : Int) (r : Row) :
    isStaleB s r = true ↔
      r.status = Status.processing ∧ ∃ t, r.claimed_at = some t ∧ t < s := by
  unfold isStaleB
  cases h : r.claimed_at <;>
    simp [h, Bool.and_eq_true, decide_eq_true_iff]

theorem claim_entries_fst (pid : String) (now : Int) (count : Nat)
    (tbl : List Row) :
    (claim_entries pid now count tbl).1 =
      (claimSelect count tbl).map (fun r => (r.id, r.data)) := rfl

theorem claim_entries_snd (pid : String) (now : Int) (count : Nat)
    (tbl : List Row) :
    (claim_entries pid now count tbl).2 =
      tbl.map (fun r =>
        if r.id ∈ (claimSelect count tbl).map Row.id then
          claimUpdateRow pid now r
        else r) := rfl

theorem mem_claimSelect {n : Nat} {tbl : List Row} {r : Row}
    (h : r ∈ claimSelect n tbl) : r ∈ tbl ∧ eligibleB r = true := by
  unfold claimSelect at h
  have h1 := List.take_subset n _ h
  have h2 := (List.perm_insertionSort createdLe (tbl.filter eligibleB)).mem_iff.mp h1
  exact ⟨(List.mem_filter.mp h2).1, (List.mem_filter.mp h2).2⟩

theorem claimed_pending_id (pid : String) (now : Int) (n : Nat)
    (tbl : List Row) (r : Row)
    (h : r ∈ (claim_entries pid now n tbl).2)
    (hp : r.status = Status.pending) :
    r.id ∉ (claimSelect n tbl).map Row.id := by
  rw [claim_entries_snd] at h
  obtain ⟨r0, hr0, hf⟩ := List.mem_map.mp h
  by_cases hc : r0.id ∈ (claimSelect n tbl).map Row.id
  · rw [if_pos hc] at hf
    rw [← hf] at hp
    simp [claimUpdateRow] at hp
  · rw [if_neg hc] at hf
    rw [← hf]
    exact hc

theorem claimSelect_sorted (n : Nat) (tbl : List Row) :
    (claimSelect n tbl).Sorted createdLe :=
  List.Pairwise.sublist (List.take_sublist n _)
    (List.sorted_insertionSort createdLe (tbl.filter eligibleB))

theorem ceil_cast_div (n c : ℕ) (hc : 0 < c) :
    ⌈(n : ℚ) / (c : ℚ)⌉₊ = (n + c - 1) / c := by
  have hcQ : (0 : ℚ) < (c : ℚ) := by exact_mod_cast hc
  have key : ∀ m : ℕ, (⌈(n : ℚ) / (c : ℚ)⌉₊ ≤ m ↔ (n + c - 1) / c ≤ m) := by
    intro m
    rw [Nat.ceil_le, div_le_iff₀ hcQ, Nat.div_le_iff_le_mul_add_pred hc]
    constructor
    · intro h
      have hn : n ≤ m * c := by exact_mod_cast h
      rw [Nat.mul_comm] at hn
      omega
    · intro h
      have hn : n ≤ c * m := by omega
      rw [Nat.mul_comm] at hn
      exact_mod_cast hn
  exact le_antisymm ((key _).mpr le_rfl) ((key _).mp le_rfl)

theorem applyOutcome_id (now : Int) (o : Outcome) (r : Row) :
    (applyOutcome now o r).id = r.id := by
  cases o <;> rfl

theorem applyOutcome_pid (now : Int) (o : Outcome) (r : Row) :
    (applyOutcome now o r).processor_id = r.processor_id := by
  cases o <;> rfl

theorem markOne_skip (pid : String) (now : Int) (oc : Nat → Outcome)
    (e : Nat × String) (r : Row) (h : r.id ≠ e.1) :
    markOne pid now oc e r = r := by
  unfold markOne
  rw [if_neg]
  rintro ⟨h1, -⟩
  exact h h1

theorem markOne_hit (pid : String) (now : Int) (oc : Nat → Outcome)
    (e : Nat × String) (r : Row) (h1 : r.id = e.1)
    (h2 : r.processor_id = some pid) :
    markOne pid now oc e r = applyOutcome now (oc e.1) r := by
  unfold markOne
  rw [if_pos ⟨h1, h2⟩]

theorem rowAfter_skip (pid : String) (now : Int) (oc : Nat → Outcome)
    (batch : List (Nat × String)) (r : Row)
    (h : r.id ∉ batch.map Prod.fst) :
    rowAfter pid now oc batch r = r := by
  induction batch with
  | nil => rfl
  | cons e es ih =>
      rw [List.map_cons] at h
      have h1 : r.id ≠ e.1 := fun hc => h (hc ▸ List.mem_cons_self _ _)
      simp only [rowAfter]
      rw [markOne_skip pid now oc e r h1]
      exact ih (fun hc => h (List.mem_cons_of_mem _ hc))

theorem rowAfter_hit (pid : String) (now : Int) (oc : Nat → Outcome)
    (batch : List (Nat × String)) (e : Nat × String) (r : Row)
    (he : e ∈ batch) (hnd : (batch.map Prod.fst).Nodup)
    (hid : r.id = e.1) (hown : r.processor_id = some pid) :
    rowAfter pid now oc batch r = applyOutcome now (oc e.1) r := by
  induction batch with
  | nil => cases he
  | cons b bs ih =>
      rw [List.map_cons, List.nodup_cons] at hnd
      rcases List.mem_cons.mp he with heb | hebs
      · subst heb
        simp only [rowAfter]
        rw [markOne_hit pid now oc e r hid hown]
        apply rowAfter_skip
        rw [applyOutcome_id, hid]
        exact hnd.1
      · have hne : r.id ≠ b.1 := by
          rw [hid]
          intro hcon
          exact hnd.1 (hcon ▸ List.mem_map_of_mem Prod.fst hebs)
        simp only [rowAfter]
        rw [markOne_skip pid now oc b r hne]
        exact ih hebs hnd.2

theorem process_entry_fst (pid : String) (now : Int) (oc : Nat → Outcome)
    (e : Nat × String) (tbl : List Row) :
    (process_entry pid now oc e tbl).1 = entryResultOf e (oc e.1) := by
  cases h : oc e.1 <;> simp [process_entry, entryResultOf, h]

theorem process_entry_snd (pid : String) (now : Int) (oc : Nat → Outcome)
    (e : Nat × String) (tbl : List Row) :
    (process_entry pid now oc e tbl).2 = tbl.map (markOne pid now oc e) := by
  cases h : oc e.1 <;>
    simp [process_entry, h, mark_entry_completed, mark_entry_failed,
      markOne, applyOutcome]

theorem process_batch_fst (pid : String) (now : Int) (oc : Nat → Outcome)
    (batch : List (Nat × String)) (tbl : List Row) :
    (process_batch pid now oc batch tbl).1 =
      batch.map (fun e => entryResultOf e (oc e.1)) := by
  induction batch generalizing tbl with
  | nil => rfl
  | cons e es ih =>
      simp only [process_batch, List.map_cons]
      rw [process_entry_fst, ih]

theorem process_batch_snd (pid : String) (now : Int) (oc : Nat → Outcome)
    (batch : List (Nat × String)) (tbl : List Row) :
    (process_batch pid now oc batch tbl).2 =
      tbl.map (rowAfter pid now oc batch) := by
  induction batch generalizing tbl with
  | nil =>
      simp only [process_batch]
      exact ((List.map_congr_left (fun a _ => rfl)).trans (List.map_id tbl)).symm
  | cons e es ih =>
      simp only [process_batch]
      rw [ih, process_entry_snd, List.map_map]
      exact List.map_congr_left (fun a _ => rfl)

/-! ### Claim theorems -/

/-- Claim C1: for `Claim` calls against the same store, serialized through
the store's atomic conditional update, the sets of work items returned are
pairwise disjoint: an item returned by the first claim is never returned
by a claim running on the resulting store state, whatever the claimants,
times and batch sizes. -/
theorem claim_disjoint (pid1 pid2 : String) (now1 now2 : Int) (n1 n2 : Nat)
    (tbl : List Row) :
    ∀ e1 ∈ (claim_entries pid1 now1 n1 tbl).1,
      ∀ e2 ∈ (claim_entries pid2 now2 n2 (claim_entries pid1 now1 n1 tbl).2).1,
        e1.1 ≠ e2.1 := by
  intro e1 h1 e2 h2
  rw [claim_entries_fst] at h1 h2
  obtain ⟨r1, hr1, he1⟩ := List.mem_map.mp h1
  obtain ⟨r2, hr2, he2⟩ := List.mem_map.mp h2
  have hmem := mem_claimSelect hr2
  have hp : r2.status = Status.pending := ((eligibleB_iff r2).mp hmem.2).1
  have hnot := claimed_pending_id pid1 now1 n1 tbl r2 hmem.1 hp
  intro hcon
  apply hnot
  have h1id : e1.1 = r1.id := by rw [← he1]
  have h2id : e2.1 = r2.id := by rw [← he2]
  rw [← h2id, ← hcon, h1id]
  exact List.mem_map_of_mem Row.id hr1

/-- Witness for C1 at a concrete two-row store: the first claim returns
item 1, the second claim (on the updated store) returns item 2, and the
theorem yields their disjointness. -/
theorem claim_disjoint_w :
    (claim_entries "A" 0 1 tblW).1 = [(1, "d")] ∧
    (claim_entries "B" 0 1 (claim_entries "A" 0 1 tblW).2).1 = [(2, "d")] ∧
    (1 : Nat) ≠ 2 :=
  ⟨by decide, by decide,
    claim_disjoint "A" "B" 0 0 1 1 tblW (1, "d") (by decide) (2, "d") (by decide)⟩

/-- Claim C4: `calculate_containers_needed` is the pure function returning
0 on an empty backlog and otherwise
`min(ceil(pendingCount / perWorkerCapacity), maxWorkers)` with the
configured capacity 8 and cap 25; in particular 500 entries yield exactly
25 containers and 17 entries yield 3. -/
theorem calculate_containers_spec :
    (∀ n : Nat, calculate_containers_needed n =
        if n = 0 then 0
        else min ⌈(n : ℚ) / (ENTRIES_PER_CONTAINER : ℚ)⌉₊ MAX_CONTAINERS) ∧
    calculate_containers_needed 500 = 25 ∧
    calculate_containers_needed 17 = 3 ∧
    calculate_containers_needed 0 = 0 := by
  refine ⟨?_, by decide, by decide, by decide⟩
  intro n
  unfold calculate_containers_needed
  rw [ceil_cast_div n ENTRIES_PER_CONTAINER (by decide)]

/-- Counterexample for C5: on two same-priority ad-hoc reports the source
query (`ORDER BY PRIORITY ASC, CREATED_TIMESTAMP DESC`) returns the newer
report first, so the output is not in the claimed creation-time-ascending
order; and on scheduled reports the source query (`NULLS FIRST`) puts the
null-due-time report first, not last as claimed. -/
theorem ordering_cx :
    get_adhoc_reports [rOldW, rNewW] = [rNewW, rOldW] ∧
    ¬ (get_adhoc_reports [rOldW, rNewW]).Sorted specAdhocLe ∧
    get_scheduled_reports [sDueW, sNoneW] = [sNoneW, sDueW] ∧
    ¬ (get_scheduled_reports [sDueW, sNoneW]).Sorted specSchedLe := by
  decide

/-- Claim C5 (amended): the claim query returns items in creation-time
ascending order (it has no priority dimension); the ad-hoc report query
returns reports ordered by priority class ascending and, within a
priority class, creation-time descending; the scheduled report query
returns reports in ascending due-time order with null-due-time reports
ordered first. -/
theorem query_order_spec :
    (∀ (n : Nat) (tbl : List Row) (pid : String) (now : Int),
       (claimSelect n tbl).Sorted createdLe ∧
       (claim_entries pid now n tbl).1 =
         (claimSelect n tbl).map (fun r => (r.id, r.data))) ∧
    (∀ view : List Report, (get_adhoc_reports view).Sorted adhocLe) ∧
    (∀ view : List Report, (get_scheduled_reports view).Sorted schedLe) :=
  ⟨fun n tbl pid now => ⟨claimSelect_sorted n tbl, claim_entries_fst pid now n tbl⟩,
   fun view => List.sorted_insertionSort adhocLe view,
   fun view => List.sorted_insertionSort schedLe view⟩

/-- Claim C7: `Complete` and `Fail` are benign no-ops when no row with the
target id is owned by the calling processor: the table is returned
entirely unchanged. -/
theorem ownership_guard (pid : String) (now : Int) (eid : Nat) (msg : String)
    (tbl : List Row)
    (h : ∀ r ∈ tbl, r.id = eid → r.processor_id ≠ some pid) :
    mark_entry_completed pid now eid tbl = tbl ∧
    mark_entry_failed pid now eid msg tbl = tbl := by
  constructor
  · unfold mark_entry_completed
    have hpt : ∀ r ∈ tbl,
        (if r.id = eid ∧ r.processor_id = some pid then
          { r with status := Status.completed, completed_at := some now }
        else r) = r := by
      intro r hr
      rw [if_neg]
      rintro ⟨h1, h2⟩
      exact h r hr h1 h2
    exact (List.map_congr_left hpt).trans (List.map_id' tbl)
  · unfold mark_entry_failed
    have hpt : ∀ r ∈ tbl,
        (if r.id = eid ∧ r.processor_id = some pid then
          { r with status := Status.failed, failed_at := some now,
                   error_message := some (msg.take 1000) }
        else r) = r := by
      intro r hr
      rw [if_neg]
      rintro ⟨h1, h2⟩
      exact h r hr h1 h2
    exact (List.map_congr_left hpt).trans (List.map_id' tbl)

/-- Witness for C7: completing or failing item 1 as processor A while the
row is owned by processor B leaves the table unchanged. -/
theorem ownership_guard_w :
    mark_entry_completed "A" 9 1 [otherRow7] = [otherRow7] ∧
    mark_entry_failed "A" 9 1 "x" [otherRow7] = [otherRow7] :=
  ownership_guard "A" 9 1 "x" [otherRow7] (by decide)

/-- Counterexample for C2: a stale processing row (leased at time 0,
reclaimed at time 31 with threshold 30) whose `retry_count` is null is
reset to pending, but its retry count is not incremented by exactly 1:
`NULL + 1` is `NULL`, so there is no value k with old count k and new
count k + 1. -/
theorem reclaim_null_retry_cx :
    ((reset_stale_entries 31 [staleNullRow]).2.headD staleNullRow).status =
      Status.pending ∧
    ((reset_stale_entries 31 [staleNullRow]).2.headD staleNullRow).retry_count =
      none ∧
    ¬ ∃ k, staleNullRow.retry_count = some k ∧
        ((reset_stale_entries 31 [staleNullRow]).2.headD staleNullRow).retry_count =
          some (k + 1) := by
  refine ⟨by decide, by decide, ?_⟩
  rintro ⟨k, hk, -⟩
  simp [staleNullRow, mkRow] at hk

/-- Claim C2 (amended): `reset_stale_entries` returns the number of stale
rows, keeps the table length, and for every row: if the row is processing
and was leased strictly before now minus the 30-minute threshold, it is
reset to pending with both lease fields cleared, its retry count is
incremented by exactly 1 when non-null and stays null when null, and all
other columns are unchanged; every other row is left entirely unchanged. -/
theorem reclaim_stale_spec (now : Int) (tbl : List Row) :
    (reset_stale_entries now tbl).1 =
      (tbl.filter (isStaleB (now - STALE_THRESHOLD_MINUTES))).length ∧
    (reset_stale_entries now tbl).2.length = tbl.length ∧
    ∀ (i : Nat) (r : Row), tbl[i]? = some r →
      ∃ r', (reset_stale_entries now tbl).2[i]? = some r' ∧
        ((r.status = Status.processing ∧
            ∃ t, r.claimed_at = some t ∧ t < now - STALE_THRESHOLD_MINUTES) →
          r'.status = Status.pending ∧ r'.processor_id = none ∧
          r'.claimed_at = none ∧
          (∀ k, r.retry_count = some k → r'.retry_count = some (k + 1)) ∧
          (r.retry_count = none → r'.retry_count = none) ∧
          r'.id = r.id ∧ r'.data = r.data ∧ r'.created_at = r.created_at ∧
          r'.completed_at = r.completed_at ∧ r'.failed_at = r.failed_at ∧
          r'.error_message = r.error_message) ∧
        (¬ (r.status = Status.processing ∧
            ∃ t, r.claimed_at = some t ∧ t < now - STALE_THRESHOLD_MINUTES) →
          r' = r) := by
  refine ⟨rfl, by simp [reset_stale_entries], ?_⟩
  intro i r hr
  refine ⟨if isStaleB (now - STALE_THRESHOLD_MINUTES) r then reclaimRow r else r,
    ?_, ?_, ?_⟩
  · show (tbl.map _)[i]? = _
    rw [List.getElem?_map, hr, Option.map_some']
  · intro hstale
    have hb : isStaleB (now - STALE_THRESHOLD_MINUTES) r = true :=
      (isStaleB_iff _ r).mpr hstale
    rw [if_pos hb]
    refine ⟨rfl, rfl, rfl, ?_, ?_, rfl, rfl, rfl, rfl, rfl, rfl⟩
    · intro k hk
      simp [reclaimRow, hk]
    · intro hk
      simp [reclaimRow, hk]
  · intro hns
    rw [if_neg]
    intro hb
    exact hns ((isStaleB_iff _ r).mp hb)

/-- Witness for C2 (amended): a row leased at time 25, with a reclaim
cycle at time 31 (cutoff 1), is not stale and is returned unchanged. -/
theorem reclaim_stale_spec_w :
    ∃ r', (reset_stale_entries 31 [freshRow]).2[0]? = some r' ∧ r' = freshRow := by
  obtain ⟨r', h1, -, h3⟩ :=
    (reclaim_stale_spec 31 [freshRow]).2.2 0 freshRow (by decide)
  refine ⟨r', h1, h3 ?_⟩
  rintro ⟨-, t, ht, hlt⟩
  simp [freshRow, mkRow] at ht
  simp [STALE_THRESHOLD_MINUTES] at hlt
  omega

/-- Claim C3: every entry returned by the claim query comes from a pending
row whose retry count is under the limit (null or below 3); a row whose
retry count has reached 3 is never among the rows counted as pending
backlog; such a dead-letter row stays at or above the limit under
reclaiming; and the backlog count ignores rows over the retry limit. -/
theorem dead_letter_excluded (pid : String) (now : Int) (n : Nat)
    (tbl : List Row) :
    (∀ e ∈ (claim_entries pid now n tbl).1,
       ∃ r, r ∈ tbl ∧ r.id = e.1 ∧ r.data = e.2 ∧
         r.status = Status.pending ∧
         (r.retry_count = none ∨ ∃ k, r.retry_count = some k ∧ k < 3)) ∧
    (∀ r ∈ tbl, (∃ k, r.retry_count = some k ∧ 3 ≤ k) →
       r ∉ pendingRows tbl) ∧
    (∀ r : Row, (∃ k, r.retry_count = some k ∧ 3 ≤ k) →
       ∃ k, (reclaimRow r).retry_count = some k ∧ 3 ≤ k) ∧
    get_pending_entries_count tbl =
      get_pending_entries_count (tbl.filter retryOkB) := by
  refine ⟨?_, ?_, ?_, ?_⟩
  · intro e he
    rw [claim_entries_fst] at he
    obtain ⟨r, hr, hre⟩ := List.mem_map.mp he
    have hmem := mem_claimSelect hr
    have helig := (eligibleB_iff r).mp hmem.2
    refine ⟨r, hmem.1, by rw [← hre], by rw [← hre], helig.1, ?_⟩
    exact (retryOkB_iff r).mp helig.2
  · rintro r hrt ⟨k, hk, h3⟩ hpend
    have hok := (eligibleB_iff r).mp (List.mem_filter.mp hpend).2
    rcases (retryOkB_iff r).mp hok.2 with hn | ⟨k2, hk2, hlt⟩
    · rw [hn] at hk
      cases hk
    · rw [hk2] at hk
      cases hk
      omega
  · rintro r ⟨k, hk, h3⟩
    exact ⟨k + 1, by simp [reclaimRow, hk], by omega⟩
  · unfold get_pending_entries_count pendingRows
    rw [List.filter_filter]
    congr 1
    apply List.filter_congr
    intro r hr
    cases h : retryOkB r <;> simp [eligibleB, h]

/-- Witness for C3: the dead-letter row of the concrete table (retry
count 5) is not among the rows counted as pending backlog. -/
theorem dead_letter_excluded_w : deadRow3 ∉ pendingRows tblD :=
  (dead_letter_excluded "A" 0 8 tblD).2.1 deadRow3 (by decide)
    ⟨5, rfl, by decide⟩

/-- Counterexample for C6: completing (or failing) item 1 as its current
owner A sets the terminal status but does not clear the lease fields:
`processor_id` and `claimed_at` keep their non-null values, so
`status == Processing ⇔ leased` is violated by the resulting row. -/
theorem complete_keeps_lease_cx :
    ((mark_entry_completed "A" 9 1 [ownedRow6]).headD ownedRow6).status =
      Status.completed ∧
    ((mark_entry_completed "A" 9 1 [ownedRow6]).headD ownedRow6).processor_id =
      some "A" ∧
    ((mark_entry_completed "A" 9 1 [ownedRow6]).headD ownedRow6).claimed_at =
      some 0 ∧
    ((mark_entry_failed "A" 9 1 "boom" [ownedRow6]).headD ownedRow6).processor_id =
      some "A" := by
  decide

/-- Claim C6 (amended): every operation preserves the invariant that
`processor_id` and `claimed_at` are both null or both non-null; `Complete`
and `Fail` by the current owner set the terminal status but leave both
lease fields unchanged (they are not cleared). -/
theorem lease_fields_spec (pid : String) (now : Int) (n eid : Nat)
    (msg : String) (tbl : List Row)
    (hinv : ∀ r ∈ tbl, leaseConsistent r) :
    (∀ r' ∈ (claim_entries pid now n tbl).2, leaseConsistent r') ∧
    (∀ r' ∈ (reset_stale_entries now tbl).2, leaseConsistent r') ∧
    (∀ r' ∈ mark_entry_completed pid now eid tbl, leaseConsistent r') ∧
    (∀ r' ∈ mark_entry_failed pid now eid msg tbl, leaseConsistent r') ∧
    (∀ (i : Nat) (r : Row), tbl[i]? = some r → r.id = eid →
       r.processor_id = some pid →
       ∃ r', (mark_entry_completed pid now eid tbl)[i]? = some r' ∧
         r'.status = Status.completed ∧ r'.processor_id = r.processor_id ∧
         r'.claimed_at = r.claimed_at) ∧
    (∀ (i : Nat) (r : Row), tbl[i]? = some r → r.id = eid →
       r.processor_id = some pid →
       ∃ r', (mark_entry_failed pid now eid msg tbl)[i]? = some r' ∧
         r'.status = Status.failed ∧ r'.processor_id = r.processor_id ∧
         r'.claimed_at = r.claimed_at) := by
  refine ⟨?_, ?_, ?_, ?_, ?_, ?_⟩
  · intro r' h
    rw [claim_entries_snd] at h
    obtain ⟨r0, h0, hf⟩ := List.mem_map.mp h
    by_cases hc : r0.id ∈ (claimSelect n tbl).map Row.id
    · rw [if_pos hc] at hf
      rw [← hf]
      exact Or.inr ⟨by simp [claimUpdateRow], by simp [claimUpdateRow]⟩
    · rw [if_neg hc] at hf
      rw [← hf]
      exact hinv r0 h0
  · intro r' h
    obtain ⟨r0, h0, hf⟩ := List.mem_map.mp h
    by_cases hc : isStaleB (now - STALE_THRESHOLD_MINUTES) r0 = true
    · rw [if_pos hc] at hf
      rw [← hf]
      exact Or.inl ⟨rfl, rfl⟩
    · rw [if_neg hc] at hf
      rw [← hf]
      exact hinv r0 h0
  · intro r' h
    obtain ⟨r0, h0, hf⟩ := List.mem_map.mp h
    by_cases hc : r0.id = eid ∧ r0.processor_id = some pid
    · rw [if_pos hc] at hf
      rw [← hf]
      rcases hinv r0 h0 with ⟨h1, h2⟩ | ⟨h1, h2⟩
      · exact Or.inl ⟨h1, h2⟩
      · exact Or.inr ⟨h1, h2⟩
    · rw [if_neg hc] at hf
      rw [← hf]
      exact hinv r0 h0
  · intro r' h
    obtain ⟨r0, h0, hf⟩ := List.mem_map.mp h
    by_cases hc : r0.id = eid ∧ r0.processor_id = some pid
    · rw [if_pos hc] at hf
      rw [← hf]
      rcases hinv r0 h0 with ⟨h1, h2⟩ | ⟨h1, h2⟩
      · exact Or.inl ⟨h1, h2⟩
      · exact Or.inr ⟨h1, h2⟩
    · rw [if_neg hc] at hf
      rw [← hf]
      exact hinv r0 h0
  · intro i r hri hid hpid
    have hf : (mark_entry_completed pid now eid tbl)[i]? =
        some { r with status := Status.completed, completed_at := some now } := by
      unfold mark_entry_completed
      rw [List.getElem?_map, hri, Option.map_some', if_pos ⟨hid, hpid⟩]
    exact ⟨_, hf, rfl, rfl, rfl⟩
  · intro i r hri hid hpid
    have hf : (mark_entry_failed pid now eid msg tbl)[i]? =
        some { r with status := Status.failed, failed_at := some now,
                      error_message := some (msg.take 1000) } := by
      unfold mark_entry_failed
      rw [List.getElem?_map, hri, Option.map_some', if_pos ⟨hid, hpid⟩]
    exact ⟨_, hf, rfl, rfl, rfl⟩

/-- Witness for C6 (amended): on the one-row table owned by A, completing
item 1 as A yields a completed row whose lease fields equal the original
row's (still non-null). -/
theorem lease_fields_spec_w :
    ∃ r', (mark_entry_completed "A" 9 1 tbl6)[0]? = some r' ∧
      r'.status = Status.completed ∧
      r'.processor_id = ownedRow6.processor_id ∧
      r'.claimed_at = ownedRow6.claimed_at :=
  (lease_fields_spec "A" 9 1 1 "m" tbl6 (by decide)).2.2.2.2.1 0 ownedRow6
    (by decide) rfl rfl

/-- Claim C8: within one claimed batch (with distinct ids, all owned by
the processor), each item's recorded outcome depends only on its own
external-call outcome: a successful item's row ends completed, a failing
item's row ends failed with the truncated reason, regardless of the other
items; and the per-item result list is exactly the per-entry function of
each entry's own outcome. -/
theorem batch_independence (pid : String) (now : Int) (oc : Nat → Outcome)
    (batch : List (Nat × String)) (tbl : List Row)
    (hown : ∀ e ∈ batch, ∀ r ∈ tbl, r.id = e.1 → r.processor_id = some pid)
    (hnd : (batch.map Prod.fst).Nodup) :
    (∀ e ∈ batch, ∀ (i : Nat) (r : Row), tbl[i]? = some r → r.id = e.1 →
       ∃ r', (process_batch pid now oc batch tbl).2[i]? = some r' ∧
         (oc e.1 = Outcome.success → r'.status = Status.completed) ∧
         (oc e.1 ≠ Outcome.success → r'.status = Status.failed ∧
            r'.error_message = some ((outcomeMsg (oc e.1)).take 1000))) ∧
    (process_batch pid now oc batch tbl).1 =
      batch.map (fun e => entryResultOf e (oc e.1)) := by
  refine ⟨?_, process_batch_fst pid now oc batch tbl⟩
  intro e he i r hri hid
  have hrmem : r ∈ tbl := List.getElem?_mem hri
  have hpid : r.processor_id = some pid := hown e he r hrmem hid
  refine ⟨rowAfter pid now oc batch r, ?_, ?_, ?_⟩
  · rw [process_batch_snd, List.getElem?_map, hri, Option.map_some']
  · intro hs
    rw [rowAfter_hit pid now oc batch e r he hnd hid hpid, hs]
    rfl
  · intro hs
    rw [rowAfter_hit pid now oc batch e r he hnd hid hpid]
    cases h : oc e.1 with
    | success => exact absurd h hs
    | httpError code => exact ⟨rfl, rfl⟩
    | timeout => exact ⟨rfl, rfl⟩
    | exc m => exact ⟨rfl, rfl⟩

/-- Witness for C8 at the concrete five-item batch where only item 3
times out: item 3's row ends failed with the truncated timeout reason. -/
theorem batch_independence_w :
    ∃ r', (process_batch "A" 0 oc8 batch8 tbl8).2[2]? = some r' ∧
      (oc8 3 = Outcome.success → r'.status = Status.completed) ∧
      (oc8 3 ≠ Outcome.success → r'.status = Status.failed ∧
         r'.error_message = some ((outcomeMsg (oc8 3)).take 1000)) :=
  (batch_independence "A" 0 oc8 batch8 tbl8 (by decide) (by decide)).1
    (3, "d") (by decide) 2 row8c (by decide) (by decide)

/-- Counterexample for C9: the worker run's exit status does not
distinguish the three outcomes: a run whose batch contains a failed item
(entry 1 times out) exits 0, exactly like an all-successful run and like
a no-work run on an empty table. -/
theorem run_exit_cx :
    (run true true "A" 0 8 oc9mix tbl9).1 = 0 ∧
    (run true true "A" 0 8 oc9all tbl9).1 = 0 ∧
    (run true true "A" 0 8 oc9all []).1 = 0 ∧
    (∃ res ∈ (run true true "A" 0 8 oc9mix tbl9).2.1, res.ok = false) ∧
    (∀ res ∈ (run true true "A" 0 8 oc9all tbl9).2.1, res.ok = true) := by
  decide

/-- Claim C9 (amended): the worker run exits 0 in every non-fatal case
(no work, all succeeded, or partial/total failure alike — the outcomes
are logged but not distinguished by the exit status); only pre-batch
setup failures (certificate download or store connection) exit non-zero
(1), and then the process returns no results and leaves the store
untouched, claiming no work. -/
theorem run_exit_spec (certOk connOk : Bool) (pid : String) (now : Int)
    (m : Nat) (oc : Nat → Outcome) (tbl : List Row) :
    (certOk = false ∨ connOk = false →
       run certOk connOk pid now m oc tbl = (1, [], tbl)) ∧
    (certOk = true → connOk = true →
       (run certOk connOk pid now m oc tbl).1 = 0) := by
  constructor
  · intro h
    rcases h with h | h
    · subst h
      simp [run]
    · subst h
      cases certOk <;> simp [run]
  · intro h1 h2
    subst h1
    subst h2
    simp only [run]
    norm_num
    split <;> rfl

/-- Witness for C9 (amended): with certificates unavailable the run exits
1 leaving the two-row store untouched and claiming nothing; with setup
succeeding, the same run exits 0. -/
theorem run_exit_spec_w :
    run false true "A" 0 8 oc9all tbl9 = (1, [], tbl9) ∧
    (run true true "A" 0 8 oc9all tbl9).1 = 0 :=
  ⟨(run_exit_spec false true "A" 0 8 oc9all tbl9).1 (Or.inl rfl),
   (run_exit_spec true true "A" 0 8 oc9all tbl9).2 rfl rfl⟩

/-- Claim C10: a row whose retry count is null passes the retry filter
(null counts as under the limit), the reclaim increment maps null to
null, and after any sequence of reclaim cycles the row's retry count is
still null, it still passes the retry filter, and whenever its status is
pending it is eligible for claiming — the retry bound never excludes it. -/
theorem null_retry_survives (nows : List Int) (tbl : List Row) (i : Nat)
    (r : Row) (hr : tbl[i]? = some r) (hnull : r.retry_count = none) :
    (reclaimRow r).retry_count = none ∧
    retryOkB r = true ∧
    ∃ r', (reclaimSteps nows tbl)[i]? = some r' ∧ r'.retry_count = none ∧
      retryOkB r' = true ∧ r'.id = r.id ∧
      (r'.status = Status.pending → eligibleB r' = true) := by
  refine ⟨by simp [reclaimRow, hnull], by simp [retryOkB, hnull], ?_⟩
  induction nows generalizing tbl i r with
  | nil =>
      exact ⟨r, hr, hnull, by simp [retryOkB, hnull], rfl,
        fun hp => by simp [eligibleB, retryOkB, hnull, hp]⟩
  | cons t ts ih =>
      have hstep : (reset_stale_entries t tbl).2[i]? =
          some (if isStaleB (t - STALE_THRESHOLD_MINUTES) r then reclaimRow r
                else r) := by
        show (tbl.map _)[i]? = _
        rw [List.getElem?_map, hr, Option.map_some']
      have h1 : (if isStaleB (t - STALE_THRESHOLD_MINUTES) r then reclaimRow r
          else r).retry_count = none := by
        split
        · simp [reclaimRow, hnull]
        · exact hnull
      have hidp : (if isStaleB (t - STALE_THRESHOLD_MINUTES) r then reclaimRow r
          else r).id = r.id := by
        split
        · rfl
        · rfl
      obtain ⟨r', hr', hn', hok', hid', hel'⟩ := ih _ _ _ hstep h1
      exact ⟨r', hr', hn', hok', hid'.trans hidp, hel'⟩

/-- Witness for C10: the null-retry-count row survives two reclaim cycles
with its retry count still null and still passing the retry filter. -/
theorem null_retry_survives_w :
    ∃ r', (reclaimSteps [31, 120] [nullRow10])[0]? = some r' ∧
      r'.retry_count = none ∧ retryOkB r' = true ∧ r'.id = nullRow10.id ∧
      (r'.status = Status.pending → eligibleB r' = true) :=
  (null_retry_survives [31, 120] [nullRow10] 0 nullRow10 (by decide) rfl).2.2

end ReportService
